import Mathlib

/-!
Shallow embedding of the drawing-canvas component
(`src/src/app/components/canvas/canvas.component.ts`) and proofs about its
undo/redo history management, shape rendering and export behaviour.

Modelling conventions:
* JS numbers that carry canvas coordinates are modelled as rationals.
* The raster surface is modelled syntactically: every painting operation
  (whole-canvas fill, stroked shape, freehand segment) yields a fresh
  `Raster` value.  Equality of `Raster` values is finer than pixel equality,
  so every equation proved below also holds pixelwise.
* Snapshots (`canvas.toDataURL()`) are modelled as the raster values
  themselves: the data-URL encode/decode round-trip is lossless, so the
  encoding is represented by the identity.
* `restoreCanvas` decodes asynchronously in the source (the pixel copy runs
  in an image `onload` callback); here it is modelled as completing in
  program order, which is the behaviour the history-manager contract in the
  specification describes.
-/

/-- Point-in-time content of the raster surface.  `base` is the blank
(fully transparent) surface; `filled` is a whole-canvas `fillRect` with the
given fill colour; `stroked` is one shape stroked by `drawShape`
(parameters: tool, start, end, stroke colour); `freehandTo` is one freehand
`lineTo`/`stroke` segment ending at the given point. -/
inductive Raster where
  | base : Raster
  | filled (prev : Raster) (color : String) : Raster
  | stroked (prev : Raster) (tool : String)
      (startX startY endX endY : ℚ) (color : String) : Raster
  | freehandTo (prev : Raster) (x y : ℚ) (color : String) : Raster
deriving DecidableEq, Inhabited

/-- Component state of `CanvasComponent`: the drawing-session fields
(`drawing`, `selectedShape`, `startX`, `startY`), the two history stacks
(index 0 is the JS array index 0, so the most recent snapshot is the LAST
list element), the background colour, the rendering context's current
`strokeStyle`, and the current raster content of the canvas element. -/
structure CanvasState where
  drawing : Bool
  selectedShape : String
  startX : ℚ
  startY : ℚ
  undoStack : List Raster
  redoStack : List Raster
  backgroundColor : String
  strokeStyle : String
  raster : Raster
deriving DecidableEq, Inhabited

/-- Field initializers of the component class, together with the 2D
context's default stroke style (black) and a blank canvas. -/
def initialState : CanvasState :=
  { drawing := false
    selectedShape := "freehand"
    startX := 0
    startY := 0
    undoStack := []
    redoStack := []
    backgroundColor := "#ffffff"
    strokeStyle := "#000000"
    raster := Raster.base }

/-- Embedding of `saveState` (lines 191-199): push `canvas.toDataURL()`
onto the undo stack, `shift()` the oldest entry away when the length
exceeds 10, and replace the redo stack by a fresh empty array. -/
def saveState (s : CanvasState) : CanvasState :=
  let pushed := s.undoStack ++ [s.raster]
  { s with
    undoStack := if 10 < pushed.length then pushed.tail else pushed
    redoStack := [] }

/-- Embedding of `clearCanvas` (lines 184-189): set the fill style to the
current background colour, fill the whole canvas, then `saveState`. -/
def clearCanvas (s : CanvasState) : CanvasState :=
  saveState { s with raster := Raster.filled s.raster s.backgroundColor }

/-- Embedding of `undoCanvas` (lines 201-208): when more than one snapshot
is stored, pop the top snapshot onto the redo stack and restore the new top
of the undo stack; otherwise do nothing. -/
def undoCanvas (s : CanvasState) : CanvasState :=
  if 1 < s.undoStack.length then
    let popped := (s.undoStack.getLast?).getD Raster.base
    let rest := s.undoStack.dropLast
    { s with
      undoStack := rest
      redoStack := s.redoStack ++ [popped]
      raster := (rest.getLast?).getD Raster.base }
  else s

/-- Embedding of `redoCanvas` (lines 210-218): when the redo stack is
non-empty, pop its top snapshot, push it back onto the undo stack and
restore it; otherwise do nothing. -/
def redoCanvas (s : CanvasState) : CanvasState :=
  if 0 < s.redoStack.length then
    let img := (s.redoStack.getLast?).getD Raster.base
    { s with
      redoStack := s.redoStack.dropLast
      undoStack := s.undoStack ++ [img]
      raster := img }
  else s

/-- Embedding of `onShapeSelected` (lines 171-173). -/
def onShapeSelected (s : CanvasState) (shape : String) : CanvasState :=
  { s with selectedShape := shape }

/-- Embedding of `changeColor` (lines 175-177): sets the context's
`strokeStyle`. -/
def changeColor (s : CanvasState) (color : String) : CanvasState :=
  { s with strokeStyle := color }

/-- Embedding of `onBackgroundColorSelected` (lines 179-182): store the new
background colour, then `clearCanvas` (which also snapshots). -/
def onBackgroundColorSelected (s : CanvasState) (color : String) : CanvasState :=
  clearCanvas { s with backgroundColor := color }

/-- Embedding of `initializeCanvas` (lines 26-35) with context acquisition
succeeding (the failure path throws and leaves no state to reason about):
it just performs the baseline `clearCanvas`, which snapshots. -/
def initializeCanvas (s : CanvasState) : CanvasState :=
  clearCanvas s

/-- Embedding of `redraw` (lines 158-169): `clearRect` the whole canvas,
then draw the last undo snapshot if one exists (blank when the stack is
empty). -/
def redraw (s : CanvasState) : Raster :=
  match s.undoStack.getLast? with
  | some lastState => lastState
  | none => Raster.base

/-- Embedding of `stopDrawing` (lines 151-156): ends the session
(`closePath` for freehand only affects the current path, not the pixels). -/
def stopDrawing (s : CanvasState) : CanvasState :=
  { s with drawing := false }

/-- Embedding of `onMouseDown` / `onTouchStart` (lines 51-61, 90-101):
record the canvas-local press coordinates as the session start point and
mark the session active (`beginPath`/`moveTo` only affect the path). -/
def onMouseDown (s : CanvasState) (x y : ℚ) : CanvasState :=
  { s with startX := x, startY := y, drawing := true }

/-- Embedding of `onMouseMove` / `onTouchMove` (lines 63-75, 103-116): while
a session is active, freehand strokes a segment to the current point; any
other tool first redraws from the last snapshot and then strokes the live
preview from the session start point to the current point.  Note that the
move coordinates are NOT stored into any component field. -/
def onMouseMove (s : CanvasState) (x y : ℚ) : CanvasState :=
  if s.drawing then
    if s.selectedShape = "freehand" then
      { s with raster := Raster.freehandTo s.raster x y s.strokeStyle }
    else
      { s with raster :=
          Raster.stroked (redraw s) s.selectedShape s.startX s.startY x y s.strokeStyle }
  else s

/-- Embedding of `onMouseUp` / `onMouseLeave` (lines 77-88).  The handler
takes NO event parameter; the source reads `event as MouseEvent`, i.e. the
ambient global `window.event` object.  That ambient object is modelled by
the extra arguments `globalEventX`, `globalEventY` (its canvas-local
coordinates).  While a session is active: commit the shape from the session
start point to the ambient coordinates (non-freehand only), end the
session, snapshot. -/
def onMouseUp (s : CanvasState) (globalEventX globalEventY : ℚ) : CanvasState :=
  if s.drawing then
    let shapeRaster := Raster.stroked s.raster s.selectedShape s.startX s.startY
      globalEventX globalEventY s.strokeStyle
    let committed :=
      if s.selectedShape ≠ "freehand" then { s with raster := shapeRaster } else s
    saveState (stopDrawing committed)
  else s

/-- Embedding of `onTouchEnd` / `onTouchCancel` (lines 118-129).  Same data
flow as `onMouseUp`: no event parameter, coordinates read from the ambient
global `event` object (cast to `TouchEvent`), modelled by the extra
arguments. -/
def onTouchEnd (s : CanvasState) (globalEventX globalEventY : ℚ) : CanvasState :=
  if s.drawing then
    let shapeRaster := Raster.stroked s.raster s.selectedShape s.startX s.startY
      globalEventX globalEventY s.strokeStyle
    let committed :=
      if s.selectedShape ≠ "freehand" then { s with raster := shapeRaster } else s
    saveState (stopDrawing committed)
  else s

/-- Path commands emitted on the 2D context by `drawShape`. -/
inductive PathCmd where
  | moveTo (x y : ℝ) : PathCmd
  | lineTo (x y : ℝ) : PathCmd
  | rect (x y width height : ℝ) : PathCmd
  | arc (x y radius startAngle endAngle : ℝ) : PathCmd

/-- Embedding of `drawShape` (lines 131-149) at the level of the path
commands it issues between `beginPath` and `stroke`: a line is
moveTo/lineTo; a rectangle is `ctx.rect` at the start corner with signed
width `endX - startX` and height `endY - startY`; a circle is `ctx.arc`
centred at the start point with radius `Math.sqrt((endX-startX)^2 +
(endY-startY)^2)`, from angle 0 to 2*pi.  Unknown tools emit nothing. -/
noncomputable def drawShape (selectedShape : String) (startX startY endX endY : ℝ) :
    List PathCmd :=
  match selectedShape with
  | "line" => [PathCmd.moveTo startX startY, PathCmd.lineTo endX endY]
  | "rectangle" =>
      [PathCmd.rect startX startY (endX - startX) (endY - startY)]
  | "circle" =>
      [PathCmd.arc startX startY
        (Real.sqrt ((endX - startX) ^ 2 + (endY - startY) ^ 2)) 0 (2 * Real.pi)]
  | _ => []

/-- Modelled from the spec wording: the Euclidean distance between two
points, used to compare against the radius `drawShape` computes. -/
noncomputable def euclideanDist (x1 y1 x2 y2 : ℝ) : ℝ :=
  Real.sqrt ((x2 - x1) ^ 2 + (y2 - y1) ^ 2)

/-- Straight-alpha colour of one pixel; channels are rationals with 1 as
full intensity / full opacity. -/
structure RGBA where
  r : ℚ
  g : ℚ
  b : ℚ
  a : ℚ
deriving DecidableEq

/-- Opaque white, the value every pixel of the temporary export canvas has
after `fillRect` with the local constant BACKGROUND_COLOR = '#FFFFFF'. -/
def opaqueWhite : RGBA := ⟨1, 1, 1, 1⟩

/-- Source-over compositing of `src` onto `dst`: the 2D context's default
`globalCompositeOperation`, which is what `drawImage` uses.  Straight-alpha
form of the Porter-Duff over operator. -/
def over (src dst : RGBA) : RGBA :=
  let outA := src.a + dst.a * (1 - src.a)
  if outA = 0 then ⟨0, 0, 0, 0⟩
  else
    ⟨(src.r * src.a + dst.r * dst.a * (1 - src.a)) / outA,
     (src.g * src.a + dst.g * dst.a * (1 - src.a)) / outA,
     (src.b * src.a + dst.b * dst.a * (1 - src.a)) / outA,
     outA⟩

/-- Embedding of `downloadCanvas` (lines 230-247).  `canvasPixels` is the
decoded pixel content of the live canvas.  The method fills a same-size
temporary canvas with opaque white, draws the live canvas over it
(source-over), encodes the temporary canvas as a PNG data resource and
clicks a link whose download attribute is the fixed name `sketchy.png`.
It reads none of the component fields other than the canvas element (in
particular not `backgroundColor`, which is shadowed by the local constant)
and writes none, so the component state is returned unchanged. -/
def downloadCanvas (s : CanvasState) (canvasPixels : ℕ × ℕ → RGBA) :
    (ℕ × ℕ → RGBA) × String × CanvasState :=
  ((fun p => over (canvasPixels p) opaqueWhite), "sketchy.png", s)

/-- History-manager invariant relating the two stacks: at least one
baseline snapshot is always retained, and together the stacks never hold
more than the 10-snapshot capacity. -/
def stacksInvariant (s : CanvasState) : Prop :=
  1 ≤ s.undoStack.length ∧ s.undoStack.length + s.redoStack.length ≤ 10

instance (s : CanvasState) : Decidable (stacksInvariant s) :=
  inferInstanceAs (Decidable (_ ∧ _))

/-- Committed-action invariant: the undo stack is non-empty and its last
element (the JS array's top) is the snapshot of the current raster. -/
def topMatchesRaster (s : CanvasState) : Prop :=
  s.undoStack ≠ [] ∧ s.undoStack.getLast? = some s.raster

instance (s : CanvasState) : Decidable (topMatchesRaster s) :=
  inferInstanceAs (Decidable (_ ∧ _))

theorem saveState_raster (s : CanvasState) : (saveState s).raster = s.raster := rfl

theorem saveState_redoStack (s : CanvasState) : (saveState s).redoStack = [] := rfl

theorem saveState_undoStack_small (s : CanvasState) (h : s.undoStack.length < 10) :
    (saveState s).undoStack = s.undoStack ++ [s.raster] := by
  unfold saveState
  dsimp only
  rw [if_neg]
  simp only [List.length_append, List.length_singleton]
  omega

theorem saveState_undoStack_big (s : CanvasState) (h : 10 ≤ s.undoStack.length) :
    (saveState s).undoStack = s.undoStack.tail ++ [s.raster] := by
  unfold saveState
  dsimp only
  rw [if_pos (by simp only [List.length_append, List.length_singleton]; omega)]
  rcases hu : s.undoStack with _ | ⟨a, t⟩
  · rw [hu] at h; simp at h
  · rfl

theorem saveState_undoStack_concat (s : CanvasState) :
    ∃ v, (saveState s).undoStack = v ++ [s.raster] := by
  rcases Nat.lt_or_ge s.undoStack.length 10 with h | h
  · exact ⟨s.undoStack, saveState_undoStack_small s h⟩
  · exact ⟨s.undoStack.tail, saveState_undoStack_big s h⟩

theorem saveState_topMatches (s : CanvasState) : topMatchesRaster (saveState s) := by
  obtain ⟨v, hv⟩ := saveState_undoStack_concat s
  constructor
  · rw [hv]; simp
  · rw [hv, saveState_raster, List.getLast?_concat]

theorem undoCanvas_of_len_le_one (s : CanvasState) (h : s.undoStack.length ≤ 1) :
    undoCanvas s = s := by
  unfold undoCanvas
  rw [if_neg]
  omega

theorem redoCanvas_of_empty (s : CanvasState) (h : s.redoStack.length = 0) :
    redoCanvas s = s := by
  unfold redoCanvas
  rw [if_neg]
  omega

theorem undoCanvas_concat (s : CanvasState) (v : List Raster) (r : Raster)
    (h : s.undoStack = v ++ [r]) (hv : v ≠ []) :
    undoCanvas s =
      { s with undoStack := v, redoStack := s.redoStack ++ [r],
               raster := (v.getLast?).getD Raster.base } := by
  unfold undoCanvas
  rw [if_pos (by rw [h]; simp only [List.length_append, List.length_singleton]
                 have := List.length_pos.2 hv; omega)]
  rw [h, List.dropLast_concat, List.getLast?_concat]
  rfl

theorem redoCanvas_concat (s : CanvasState) (w : List Raster) (r : Raster)
    (h : s.redoStack = w ++ [r]) :
    redoCanvas s =
      { s with redoStack := w, undoStack := s.undoStack ++ [r], raster := r } := by
  unfold redoCanvas
  rw [if_pos (by rw [h]; simp only [List.length_append, List.length_singleton]; omega)]
  rw [h, List.dropLast_concat, List.getLast?_concat]
  rfl

theorem getLast?_tail_of_ne_nil {α : Type} (l : List α) (h : l.tail ≠ []) :
    l.tail.getLast? = l.getLast? := by
  rcases l with _ | ⟨a, t⟩
  · rfl
  · rcases t with _ | ⟨b, u⟩
    · simp at h
    · exact (List.getLast?_cons_cons).symm

/-- C1: for every state with at most 10 stored snapshots, `saveState`
appends the current raster snapshot as the new last element, performs no
eviction while fewer than 10 snapshots were stored, evicts exactly the
oldest (front) entry when 10 were stored, keeps the stack within 10
entries, and leaves the redo stack empty. -/
theorem saveState_appends_evicts_clears (s : CanvasState)
    (hcap : s.undoStack.length ≤ 10) :
    (saveState s).redoStack = []
    ∧ (saveState s).undoStack.getLast? = some s.raster
    ∧ (s.undoStack.length < 10 → (saveState s).undoStack = s.undoStack ++ [s.raster])
    ∧ (s.undoStack.length = 10 → (saveState s).undoStack = s.undoStack.tail ++ [s.raster])
    ∧ (saveState s).undoStack.length ≤ 10 := by
  refine ⟨saveState_redoStack s, (saveState_topMatches s).2.trans (by rw [saveState_raster]),
    fun h => saveState_undoStack_small s h,
    fun h => saveState_undoStack_big s (le_of_eq h.symm), ?_⟩
  rcases Nat.lt_or_ge s.undoStack.length 10 with h | h
  · rw [saveState_undoStack_small s h]
    simp only [List.length_append, List.length_singleton]
    omega
  · rw [saveState_undoStack_big s h]
    simp only [List.length_append, List.length_singleton, List.length_tail]
    omega

theorem saveState_appends_evicts_clears_witness :
    initialState.undoStack.length ≤ 10
    ∧ (saveState initialState).redoStack = []
    ∧ (saveState initialState).undoStack.getLast? = some initialState.raster :=
  ⟨by decide, (saveState_appends_evicts_clears initialState (by decide)).1,
    (saveState_appends_evicts_clears initialState (by decide)).2.1⟩

/-- C2: after any committed action (`saveState` itself, `clearCanvas`,
`onBackgroundColorSelected`, and a shape commit through `onMouseUp` or
`onTouchEnd` in an active session) the undo stack is non-empty and its
last element is the snapshot of the current raster state. -/
theorem committed_action_top_is_current (s : CanvasState) :
    topMatchesRaster (saveState s)
    ∧ topMatchesRaster (clearCanvas s)
    ∧ (∀ c, topMatchesRaster (onBackgroundColorSelected s c))
    ∧ (s.drawing = true → ∀ gx gy,
        topMatchesRaster (onMouseUp s gx gy) ∧ topMatchesRaster (onTouchEnd s gx gy)) := by
  refine ⟨saveState_topMatches s, saveState_topMatches _, fun c => saveState_topMatches _,
    fun hd gx gy => ⟨?_, ?_⟩⟩
  · unfold onMouseUp
    rw [if_pos hd]
    exact saveState_topMatches _
  · unfold onTouchEnd
    rw [if_pos hd]
    exact saveState_topMatches _

theorem committed_action_top_is_current_witness :
    (onMouseDown initialState 1 2).drawing = true
    ∧ topMatchesRaster (onMouseUp (onMouseDown initialState 1 2) 3 4) :=
  ⟨rfl, (((committed_action_top_is_current (onMouseDown initialState 1 2)).2.2.2) rfl 3 4).1⟩

/-- C3: `undoCanvas` is a no-op (whole component state unchanged, no error)
whenever the undo stack has at most one entry, and `redoCanvas` is a no-op
whenever the redo stack is empty. -/
theorem undo_redo_noop (s : CanvasState) :
    (s.undoStack.length ≤ 1 → undoCanvas s = s)
    ∧ (s.redoStack.length = 0 → redoCanvas s = s) :=
  ⟨fun h => undoCanvas_of_len_le_one s h, fun h => redoCanvas_of_empty s h⟩

theorem undo_redo_noop_witness :
    initialState.undoStack.length ≤ 1 ∧ initialState.redoStack.length = 0
    ∧ undoCanvas initialState = initialState ∧ redoCanvas initialState = initialState :=
  ⟨by decide, by decide, (undo_redo_noop initialState).1 (by decide),
    (undo_redo_noop initialState).2 (by decide)⟩

/-- C4: for every component state, the sequence saveState; undoCanvas;
redoCanvas restores the exact pre-undo visible state: the final raster
equals the raster right after the snapshot (which is the snapshot that was
on top of the undo stack before the undo), and both stacks return to their
pre-undo configuration. -/
theorem snapshot_undo_redo_roundtrip (s : CanvasState) :
    (redoCanvas (undoCanvas (saveState s))).raster = (saveState s).raster
    ∧ (redoCanvas (undoCanvas (saveState s))).raster = s.raster
    ∧ (redoCanvas (undoCanvas (saveState s))).undoStack = (saveState s).undoStack
    ∧ (redoCanvas (undoCanvas (saveState s))).redoStack = (saveState s).redoStack
    ∧ (saveState s).undoStack.getLast? = some (redoCanvas (undoCanvas (saveState s))).raster := by
  obtain ⟨v, hv⟩ := saveState_undoStack_concat s
  rcases eq_or_ne v [] with rfl | hne
  · have h1 : undoCanvas (saveState s) = saveState s :=
      undoCanvas_of_len_le_one _ (by rw [hv]; simp)
    have h2 : redoCanvas (saveState s) = saveState s :=
      redoCanvas_of_empty _ (by rw [saveState_redoStack]; rfl)
    rw [h1, h2]
    exact ⟨rfl, saveState_raster s, rfl, rfl,
      by rw [hv, saveState_raster, List.nil_append, List.getLast?_singleton]⟩
  · rw [undoCanvas_concat (saveState s) v s.raster hv hne]
    rw [redoCanvas_concat _ [] s.raster rfl]
    refine ⟨?_, ?_, ?_, ?_, ?_⟩ <;>
      simp [saveState_raster, saveState_redoStack, hv, List.getLast?_concat]

theorem undoCanvas_saveState_raster (t : CanvasState) (r : Raster)
    (hne : t.undoStack ≠ []) (htop : t.undoStack.getLast? = some r) :
    (undoCanvas (saveState t)).raster = r := by
  rcases Nat.lt_or_ge t.undoStack.length 10 with h | h
  · rw [undoCanvas_concat _ _ _ (saveState_undoStack_small t h) hne]
    dsimp only
    rw [htop]
    rfl
  · have htail : t.undoStack.tail ≠ [] := by
      intro hnil
      have := congrArg List.length hnil
      simp only [List.length_tail, List.length_nil] at this
      omega
    rw [undoCanvas_concat _ _ _ (saveState_undoStack_big t h) htail]
    dsimp only
    rw [getLast?_tail_of_ne_nil _ htail, htop]
    rfl

/-- C5: when the undo stack is non-empty and (as after any committed
action) its top snapshot is the current raster, clearCanvas followed
immediately by undoCanvas restores the raster that was visible immediately
before the clear. -/
theorem clear_then_undo_restores (s : CanvasState)
    (hne : s.undoStack ≠ []) (htop : s.undoStack.getLast? = some s.raster) :
    (undoCanvas (clearCanvas s)).raster = s.raster :=
  undoCanvas_saveState_raster
    { s with raster := Raster.filled s.raster s.backgroundColor } s.raster hne htop

theorem clear_then_undo_restores_witness :
    ({ initialState with undoStack := [Raster.base] } : CanvasState).undoStack ≠ []
    ∧ ({ initialState with undoStack := [Raster.base] } : CanvasState).undoStack.getLast?
        = some ({ initialState with undoStack := [Raster.base] } : CanvasState).raster
    ∧ (undoCanvas (clearCanvas { initialState with undoStack := [Raster.base] })).raster
        = ({ initialState with undoStack := [Raster.base] } : CanvasState).raster :=
  ⟨by decide, by decide,
    clear_then_undo_restores { initialState with undoStack := [Raster.base] }
      (by decide) (by decide)⟩

/-- C6 counterexample: with the rectangle tool, after a press at (0,0) and
a move to (5,5), the release handler commits the shape to the coordinates
reported by the ambient global event object, here (7,7), and NOT to the
most recent move position (5,5); changing only the ambient event
coordinates changes the committed state, so the handler does read the
out-of-scope global event object. -/
theorem release_reads_global_event_cex :
    (onMouseUp (onMouseMove (onMouseDown (onShapeSelected initialState "rectangle") 0 0) 5 5)
        7 7).raster
      = Raster.stroked (Raster.stroked Raster.base "rectangle" 0 0 5 5 "#000000")
          "rectangle" 0 0 7 7 "#000000"
    ∧ (onMouseUp (onMouseMove (onMouseDown (onShapeSelected initialState "rectangle") 0 0) 5 5)
        7 7).raster
      ≠ Raster.stroked (Raster.stroked Raster.base "rectangle" 0 0 5 5 "#000000")
          "rectangle" 0 0 5 5 "#000000"
    ∧ onMouseUp (onMouseMove (onMouseDown (onShapeSelected initialState "rectangle") 0 0) 5 5) 7 7
      ≠ onMouseUp (onMouseMove (onMouseDown (onShapeSelected initialState "rectangle") 0 0) 5 5) 5 5 := by
  refine ⟨by decide, by decide, by decide⟩

/-- C6 amended: in an active session with a non-freehand tool, the
release handlers (which take no event parameter) commit the final shape
from the session start point to the coordinates of the ambient global
event object; no most-recent move position is tracked in session state. -/
theorem release_commits_global_event_coords (s : CanvasState) (gx gy : ℚ)
    (hdraw : s.drawing = true) (hshape : s.selectedShape ≠ "freehand") :
    (onMouseUp s gx gy).raster
        = Raster.stroked s.raster s.selectedShape s.startX s.startY gx gy s.strokeStyle
    ∧ (onTouchEnd s gx gy).raster
        = Raster.stroked s.raster s.selectedShape s.startX s.startY gx gy s.strokeStyle := by
  constructor
  · unfold onMouseUp
    rw [if_pos hdraw]
    dsimp only
    rw [if_pos hshape]
    rfl
  · unfold onTouchEnd
    rw [if_pos hdraw]
    dsimp only
    rw [if_pos hshape]
    rfl

theorem release_commits_global_event_coords_witness :
    (onMouseDown (onShapeSelected initialState "line") 1 1).drawing = true
    ∧ (onMouseDown (onShapeSelected initialState "line") 1 1).selectedShape ≠ "freehand"
    ∧ (onMouseUp (onMouseDown (onShapeSelected initialState "line") 1 1) 2 3).raster
        = Raster.stroked Raster.base "line" 1 1 2 3 "#000000" :=
  ⟨rfl, by decide,
    (release_commits_global_event_coords (onMouseDown (onShapeSelected initialState "line") 1 1)
      2 3 rfl (by decide)).1⟩

/-- C7: the circle tool draws a single arc centred at the start point with
radius the Euclidean distance from start to end (full turn from angle 0 to
2*pi); in particular from (50,50) to (80,50) it draws a circle centred at
(50,50) with radius 30. -/
theorem drawShape_circle_center_radius (sx sy ex ey : ℝ) :
    drawShape "circle" sx sy ex ey
        = [PathCmd.arc sx sy (euclideanDist sx sy ex ey) 0 (2 * Real.pi)]
    ∧ drawShape "circle" 50 50 80 50 = [PathCmd.arc 50 50 30 0 (2 * Real.pi)] := by
  constructor
  · rfl
  · have h : Real.sqrt ((80 - 50 : ℝ) ^ 2 + (50 - 50 : ℝ) ^ 2) = 30 := by
      rw [show ((80 - 50 : ℝ) ^ 2 + (50 - 50 : ℝ) ^ 2) = 30 ^ 2 by norm_num]
      exact Real.sqrt_sq (by norm_num)
    show [PathCmd.arc 50 50 (Real.sqrt ((80 - 50 : ℝ) ^ 2 + (50 - 50 : ℝ) ^ 2)) 0 (2 * Real.pi)]
        = [PathCmd.arc 50 50 30 0 (2 * Real.pi)]
    rw [h]

/-- C8: the rectangle tool draws a single axis-aligned rectangle with
corner at the start point and signed size (endX - startX, endY - startY);
in particular from (10,10) to (5,5) it draws a rectangle with width -5 and
height -5. -/
theorem drawShape_rectangle_signed (sx sy ex ey : ℝ) :
    drawShape "rectangle" sx sy ex ey = [PathCmd.rect sx sy (ex - sx) (ey - sy)]
    ∧ drawShape "rectangle" 10 10 5 5 = [PathCmd.rect 10 10 (-5) (-5)] := by
  constructor
  · rfl
  · show [PathCmd.rect 10 10 (5 - 10 : ℝ) (5 - 10 : ℝ)] = [PathCmd.rect 10 10 (-5) (-5)]
    norm_num

/-- C9: for every canvas pixel content and every live background colour,
downloadCanvas composites the canvas over an opaque-white surface, so every
exported pixel has alpha 1, fully transparent pixels export as white, the
export does not depend on the live background colour, and the saved
filename is the fixed string sketchy.png. -/
theorem downloadCanvas_opaque_white_fixed_name (s : CanvasState)
    (canvasPixels : ℕ × ℕ → RGBA) (p : ℕ × ℕ) (c : String) :
    ((downloadCanvas s canvasPixels).1 p).a = 1
    ∧ (downloadCanvas s canvasPixels).2.1 = "sketchy.png"
    ∧ ((canvasPixels p).a = 0 → (downloadCanvas s canvasPixels).1 p = opaqueWhite)
    ∧ (downloadCanvas { s with backgroundColor := c } canvasPixels).1
        = (downloadCanvas s canvasPixels).1
    ∧ (downloadCanvas { s with backgroundColor := c } canvasPixels).2.1
        = (downloadCanvas s canvasPixels).2.1 := by
  refine ⟨?_, rfl, ?_, rfl, rfl⟩
  · show (over (canvasPixels p) opaqueWhite).a = 1
    unfold over opaqueWhite
    dsimp only
    rw [show (canvasPixels p).a + 1 * (1 - (canvasPixels p).a) = 1 from by ring]
    rw [if_neg one_ne_zero]
  · intro h
    show over (canvasPixels p) opaqueWhite = opaqueWhite
    unfold over opaqueWhite
    dsimp only
    rw [h]
    norm_num

theorem downloadCanvas_opaque_white_fixed_name_witness :
    ((fun _ : ℕ × ℕ => (⟨0, 0, 0, 0⟩ : RGBA)) (0, 0)).a = 0
    ∧ ((downloadCanvas initialState (fun _ => ⟨0, 0, 0, 0⟩)).1 (0, 0)).a = 1
    ∧ (downloadCanvas initialState (fun _ => ⟨0, 0, 0, 0⟩)).1 (0, 0) = opaqueWhite :=
  ⟨rfl,
    (downloadCanvas_opaque_white_fixed_name initialState (fun _ => ⟨0, 0, 0, 0⟩)
      (0, 0) "#000000").1,
    (downloadCanvas_opaque_white_fixed_name initialState (fun _ => ⟨0, 0, 0, 0⟩)
      (0, 0) "#000000").2.2.1 rfl⟩

theorem stacksInvariant_saveState (s : CanvasState) (h : s.undoStack.length ≤ 10) :
    stacksInvariant (saveState s) := by
  have hr := saveState_redoStack s
  rcases Nat.lt_or_ge s.undoStack.length 10 with hlt | hge
  · have hu := saveState_undoStack_small s hlt
    refine ⟨?_, ?_⟩ <;>
      simp only [hu, hr, List.length_append, List.length_singleton, List.length_nil] <;>
      omega
  · have hu := saveState_undoStack_big s hge
    refine ⟨?_, ?_⟩ <;>
      simp only [hu, hr, List.length_append, List.length_singleton, List.length_nil,
        List.length_tail] <;>
      omega

theorem stacksInvariant_clearCanvas (s : CanvasState) (h : s.undoStack.length ≤ 10) :
    stacksInvariant (clearCanvas s) := by
  unfold clearCanvas
  exact stacksInvariant_saveState _ h

theorem stacksInvariant_bgSelected (s : CanvasState) (c : String)
    (h : s.undoStack.length ≤ 10) :
    stacksInvariant (onBackgroundColorSelected s c) := by
  unfold onBackgroundColorSelected clearCanvas
  exact stacksInvariant_saveState _ h

theorem stacksInvariant_undoCanvas (s : CanvasState)
    (h1 : 1 ≤ s.undoStack.length) (h2 : s.undoStack.length + s.redoStack.length ≤ 10) :
    stacksInvariant (undoCanvas s) := by
  unfold undoCanvas
  split
  case isTrue hgt =>
    refine ⟨?_, ?_⟩ <;>
      · dsimp only
        simp only [List.length_dropLast, List.length_append, List.length_singleton]
        omega
  case isFalse hle => exact ⟨h1, h2⟩

theorem stacksInvariant_redoCanvas (s : CanvasState)
    (h1 : 1 ≤ s.undoStack.length) (h2 : s.undoStack.length + s.redoStack.length ≤ 10) :
    stacksInvariant (redoCanvas s) := by
  unfold redoCanvas
  split
  case isTrue hgt =>
    refine ⟨?_, ?_⟩ <;>
      · dsimp only
        simp only [List.length_dropLast, List.length_append, List.length_singleton]
        omega
  case isFalse hle => exact ⟨h1, h2⟩

theorem stacksInvariant_onMouseUp (s : CanvasState) (gx gy : ℚ)
    (h1 : 1 ≤ s.undoStack.length) (h2 : s.undoStack.length + s.redoStack.length ≤ 10) :
    stacksInvariant (onMouseUp s gx gy) := by
  unfold onMouseUp
  split
  case isTrue hd =>
    dsimp only
    split <;> exact stacksInvariant_saveState _ (show s.undoStack.length ≤ 10 by omega)
  case isFalse hd => exact ⟨h1, h2⟩

theorem stacksInvariant_onTouchEnd (s : CanvasState) (gx gy : ℚ)
    (h1 : 1 ≤ s.undoStack.length) (h2 : s.undoStack.length + s.redoStack.length ≤ 10) :
    stacksInvariant (onTouchEnd s gx gy) := by
  unfold onTouchEnd
  split
  case isTrue hd =>
    dsimp only
    split <;> exact stacksInvariant_saveState _ (show s.undoStack.length ≤ 10 by omega)
  case isFalse hd => exact ⟨h1, h2⟩

/-- C10: after initialization the stacks satisfy undo-length at least 1 and
undo-length plus redo-length at most 10; every public operation preserves
this invariant, and under it the redo stack never exceeds 9 entries. -/
theorem history_stacks_bounded :
    stacksInvariant (initializeCanvas initialState)
    ∧ ∀ s, stacksInvariant s →
        stacksInvariant (saveState s)
        ∧ stacksInvariant (clearCanvas s)
        ∧ (∀ c, stacksInvariant (onBackgroundColorSelected s c))
        ∧ stacksInvariant (undoCanvas s)
        ∧ stacksInvariant (redoCanvas s)
        ∧ (∀ t, stacksInvariant (onShapeSelected s t))
        ∧ (∀ c, stacksInvariant (changeColor s c))
        ∧ (∀ pix, stacksInvariant (downloadCanvas s pix).2.2)
        ∧ (∀ gx gy, stacksInvariant (onMouseUp s gx gy) ∧ stacksInvariant (onTouchEnd s gx gy))
        ∧ s.redoStack.length ≤ 9 := by
  refine ⟨by decide, fun s h => ?_⟩
  obtain ⟨h1, h2⟩ := h
  have hle : s.undoStack.length ≤ 10 := by omega
  exact ⟨stacksInvariant_saveState s hle,
    stacksInvariant_clearCanvas s hle,
    fun c => stacksInvariant_bgSelected s c hle,
    stacksInvariant_undoCanvas s h1 h2,
    stacksInvariant_redoCanvas s h1 h2,
    fun t => ⟨h1, h2⟩,
    fun c => ⟨h1, h2⟩,
    fun pix => ⟨h1, h2⟩,
    fun gx gy => ⟨stacksInvariant_onMouseUp s gx gy h1 h2,
      stacksInvariant_onTouchEnd s gx gy h1 h2⟩,
    by omega⟩

theorem history_stacks_bounded_witness :
    stacksInvariant (initializeCanvas initialState)
    ∧ stacksInvariant (saveState (initializeCanvas initialState))
    ∧ (initializeCanvas initialState).redoStack.length ≤ 9 :=
  ⟨by decide,
    (history_stacks_bounded.2 (initializeCanvas initialState) (by decide)).1,
    (history_stacks_bounded.2 (initializeCanvas initialState) (by decide)).2.2.2.2.2.2.2.2.2⟩
